import Mathlib

/-!
Verification of the firepwd credential-recovery program (src/firepwd.py)
against its natural-language specification.

Byte strings are modelled as `List Nat` (each element a byte value).
Python exceptions are modelled by an explicit error type `PyErr`; a Python
function that can raise is embedded as a function into `Except PyErr _`.
External cryptographic library routines (hashlib's sha1, hmac, pbkdf2_hmac,
PyCryptodome's DES3/AES CBC modes) and the external pyasn1 DER decoder are
not part of this repository; they are taken as explicit function parameters
of the embedded definitions, so every theorem quantifies over them.
CBC block chaining itself is modelled concretely (over an abstract block
cipher) where a claim speaks about CBC structure.
-/

namespace Firepwd

/-- Byte strings: lists of byte values. -/
abbrev Bytes := List Nat

/-- The failure modes of the program, naming Python exceptions by the
specification's error vocabulary where the spec gives one:
`invalidMasterPassword` for the password-check RuntimeError,
`unsupportedParameters` for the `assert` failures inside `decryptPBE`,
`badFormat` for the `assert` failures on the BSD-DB header,
`noStoredCredentials` for the missing-nssPrivate-row RuntimeError,
`indexError`/`keyError`/`typeError`/`structError`/`asn1Error` for the
generic Python exceptions of the corresponding operations.
`fuelExhausted` is an artifact of embedding Python `while` loops with
explicit fuel; all callers supply enough fuel for it to be unreachable. -/
inductive PyErr
  | indexError
  | keyError
  | typeError
  | structError
  | asn1Error
  | invalidMasterPassword
  | unsupportedParameters
  | badFormat
  | noStoredCredentials
  | fuelExhausted
deriving DecidableEq

/-- The ASN.1 value trees produced by the external pyasn1 decoder, as the
program observes them: sequences are indexed, OCTET STRINGs yield bytes via
`asOctets`, INTEGERs convert to ints, OBJECT IDENTIFIERs stringify to their
dotted-decimal form. -/
inductive Asn1
  | seq (cs : List Asn1)
  | oct (bs : Bytes)
  | int (n : Nat)
  | oid (s : String)
  | null

/-- Python indexing `node[i]` on a pyasn1 value: only sequences are
indexable; out of range or wrong kind raises (modelled as `none`). -/
def Asn1.get : Asn1 → Nat → Option Asn1
  | .seq cs, i => cs[i]?
  | _, _ => none

/-- pyasn1 `.asOctets()`: defined on OCTET STRING nodes only. -/
def Asn1.asOctets : Asn1 → Option Bytes
  | .oct bs => some bs
  | _ => none

/-- Python `int(...)` / integer arithmetic on a pyasn1 node: defined on
INTEGER nodes only. -/
def Asn1.asInt : Asn1 → Option Nat
  | .int n => some n
  | _ => none

/-- Python `str(...)` on a pyasn1 node: an OBJECT IDENTIFIER stringifies to
its dotted-decimal text; any other node stringifies to some representation
that is never equal to a dotted OID constant. -/
def Asn1.str : Asn1 → String
  | .oid s => s
  | _ => "<non-oid>"

/-- The byte string `b'password-check\x02\x02'`, the 16-byte known plaintext of the
master-password check. -/
def passwordCheckLiteral : Bytes :=
  [112, 97, 115, 115, 119, 111, 114, 100, 45, 99, 104, 101, 99, 107, 2, 2]

/-- The dictionary key `b'password-check'` of the legacy key store. -/
def passwordCheckKey : Bytes :=
  [112, 97, 115, 115, 119, 111, 114, 100, 45, 99, 104, 101, 99, 107]

/-- The dictionary key `b'global-salt'` of the legacy key store. -/
def globalSaltKey : Bytes :=
  [103, 108, 111, 98, 97, 108, 45, 115, 97, 108, 116]

/-- The constant `CKA_ID = unhexlify('f8000000000000000000000000000001')`. -/
def CKA_ID : Bytes :=
  [0xf8, 0, 0, 0, 0, 0, 0, 0, 0, 0, 0, 0, 0, 0, 0, 1]

/-- The dotted OID of pbeWithSha1AndTripleDES-CBC. -/
def oid3DES : String := "1.2.840.113549.1.12.5.1.3"

/-- The dotted OID of pkcs5 PBES2. -/
def oidPBES2 : String := "1.2.840.113549.1.5.13"

/-! ## KeyDerivation: `decryptMoz3DES` (spec name `legacy3DES`) -/

/-- Embedding of `decryptMoz3DES` (src/firepwd.py lines 165-178), with the
external library primitives (`sha1`, HMAC-SHA1, 3DES-CBC decryption) as
parameters.  `k[-8:]` is the last eight bytes, i.e. `k.drop (k.length - 8)`
(for `k` shorter than 8 Python and truncated `Nat` subtraction both give the
whole of `k`); `k[:24]` is `k.take 24`; `b'\x00' * (20 - len(entrySalt))`
is `List.replicate (20 - entrySalt.length) 0` (empty when the salt is
longer than 20, exactly like Python's negative repetition). -/
def decryptMoz3DES (sha1 : Bytes → Bytes) (hmacSha1 : Bytes → Bytes → Bytes)
    (des3CbcDec : Bytes → Bytes → Bytes → Bytes)
    (globalSalt masterPassword entrySalt encryptedData : Bytes) : Bytes :=
  let hp := sha1 (globalSalt ++ masterPassword)
  let pes := entrySalt ++ List.replicate (20 - entrySalt.length) 0
  let chp := sha1 (hp ++ entrySalt)
  let k1 := hmacSha1 chp (pes ++ entrySalt)
  let tk := hmacSha1 chp pes
  let k2 := hmacSha1 chp (tk ++ entrySalt)
  let k := k1 ++ k2
  let iv := k.drop (k.length - 8)
  let key := k.take 24
  des3CbcDec key iv encryptedData

/-- The key/IV pair that `decryptMoz3DES` derives and feeds to
`DES3.new(key, DES3.MODE_CBC, iv)` (the values it prints under `-v`). -/
def moz3DESkeyiv (sha1 : Bytes → Bytes) (hmacSha1 : Bytes → Bytes → Bytes)
    (globalSalt masterPassword entrySalt : Bytes) : Bytes × Bytes :=
  let hp := sha1 (globalSalt ++ masterPassword)
  let pes := entrySalt ++ List.replicate (20 - entrySalt.length) 0
  let chp := sha1 (hp ++ entrySalt)
  let k1 := hmacSha1 chp (pes ++ entrySalt)
  let tk := hmacSha1 chp pes
  let k2 := hmacSha1 chp (tk ++ entrySalt)
  let k := k1 ++ k2
  (k.take 24, k.drop (k.length - 8))

/-- Transcription of the `legacy3DES` derivation exactly as the
specification words it (section 4.3): `pes` is the entry salt *right-padded
with zero bytes to 20 bytes* (modelled as padding then truncating to 20),
`key = (k1 ∥ k2)[0:24]`, `iv = (k1 ∥ k2)[-8:]`, and the result is the
3DES-CBC decryption under that key and IV with no padding removal. -/
def legacy3DESspec (sha1 : Bytes → Bytes) (hmacSha1 : Bytes → Bytes → Bytes)
    (des3CbcDec : Bytes → Bytes → Bytes → Bytes)
    (globalSalt masterPassword entrySalt encryptedData : Bytes) : Bytes :=
  let hp := sha1 (globalSalt ++ masterPassword)
  let pes := (entrySalt ++ List.replicate 20 0).take 20
  let chp := sha1 (hp ++ entrySalt)
  let k1 := hmacSha1 chp (pes ++ entrySalt)
  let tk := hmacSha1 chp pes
  let k2 := hmacSha1 chp (tk ++ entrySalt)
  let k := k1 ++ k2
  let key := k.take 24
  let iv := k.drop (k.length - 8)
  des3CbcDec key iv encryptedData

/-- Right-padding a list that is at most 20 long: appending the truncating
pad equals padding-then-truncating. -/
lemma pad20_eq (es : Bytes) (h : es.length ≤ 20) :
    es ++ List.replicate (20 - es.length) 0 = (es ++ List.replicate 20 0).take 20 := by
  rw [List.take_append_eq_append_take, List.take_of_length_le h, List.take_replicate]
  have hm : min (20 - es.length) 20 = 20 - es.length := by omega
  rw [hm]

/-- C1: for every globalSalt, masterPassword, entrySalt of length at most
20 and ciphertext, `decryptMoz3DES` computes exactly the derivation chain
hp, pes, chp, k1, tk, k2, key = (k1∥k2)[0:24], iv = (k1∥k2)[-8:] stated by
the specification, and returns the 3DES-CBC decryption of the ciphertext
under that key and IV with no padding removed. -/
theorem claim1_legacy3DES_derivation
    (sha1 : Bytes → Bytes) (hmacSha1 : Bytes → Bytes → Bytes)
    (des3CbcDec : Bytes → Bytes → Bytes → Bytes)
    (globalSalt masterPassword entrySalt encryptedData : Bytes)
    (h : entrySalt.length ≤ 20) :
    decryptMoz3DES sha1 hmacSha1 des3CbcDec globalSalt masterPassword entrySalt encryptedData
      = legacy3DESspec sha1 hmacSha1 des3CbcDec globalSalt masterPassword entrySalt
          encryptedData := by
  unfold decryptMoz3DES legacy3DESspec
  rw [pad20_eq entrySalt h]

/-- Witness for C1 at a concrete input. -/
theorem claim1_legacy3DES_derivation_witness :
    decryptMoz3DES (fun _ => [1]) (fun _ m => m) (fun k iv d => k ++ iv ++ d)
        [2] [3] [4, 5] [6]
      = legacy3DESspec (fun _ => [1]) (fun _ m => m) (fun k iv d => k ++ iv ++ d)
        [2] [3] [4, 5] [6] :=
  claim1_legacy3DES_derivation (fun _ => [1]) (fun _ m => m) (fun k iv d => k ++ iv ++ d)
    [2] [3] [4, 5] [6] (by decide)

/-! ## DerDecoder: `printASN1` -/

/-- Chained pyasn1 indexing `v[i₁][i₂]…`; `none` models the exception a
failing index raises. -/
def Asn1.path : Asn1 → List Nat → Option Asn1
  | v, [] => some v
  | v, i :: is =>
    match v.get i with
    | none => none
    | some w => w.path is

mutual

/-- Embedding of `printASN1` (src/firepwd.py lines 59-103), keeping its
consumed-length return value and every failure mode, and discarding the
printed text.  `d[0]` is the tag, `d[1]` the first length byte; when its
top bit is set the code unconditionally takes `d[2]` as the length and
skips exactly one extra byte (the declared count of length bytes is
ignored).  An unrecognized tag raises `KeyError` at the `asn1Types[type]`
lookup before any branch runs, so the trailing `else` of the source is
unreachable.  The `fuel` argument makes the `while` loop and recursion
structurally terminating; callers pass more than enough for it never to
run out. -/
def printASN1go : Nat → List Nat → Except PyErr Nat
  | 0, _ => .error .fuelExhausted
  | fuel + 1, d =>
    match d[0]?, d[1]? with
    | some t, some len0 =>
      let lenSkip : Except PyErr (Nat × Nat) :=
        if len0 &&& 0x80 > 0 then
          match d[2]? with
          | none => .error .indexError
          | some l2 => .ok (l2, 1)
        else .ok (len0, 0)
      match lenSkip with
      | .error e => .error e
      | .ok (length, skip) =>
        if t = 0x30 ∨ t = 4 ∨ t = 6 ∨ t = 2 ∨ t = 5 then
          if t = 0x30 then
            match seqLoop fuel d skip (Int.ofNat length) 0 with
            | .error e => .error e
            | .ok _ => .ok (length + 2)
          else .ok (length + 2)
        else .error .keyError
    | _, _ => .error .indexError

/-- The `while seqLen > 0` child loop of `printASN1` for SEQUENCE nodes:
each pass decodes one child at offset `2 + skip + readLen` and subtracts
the child's consumed length from the remaining declared length (which may
go negative, exactly as the Python `int` does). -/
def seqLoop : Nat → List Nat → Nat → Int → Nat → Except PyErr Unit
  | 0, _, _, _, _ => .error .fuelExhausted
  | fuel + 1, d, skip, seqLen, readLen =>
    if seqLen ≤ 0 then .ok ()
    else
      match printASN1go fuel (d.drop (2 + skip + readLen)) with
      | .error e => .error e
      | .ok len2 => seqLoop fuel d skip (seqLen - len2) (readLen + len2)

end

/-- The function `printASN1` as the program calls it (the `l` and `rl` arguments only
affect dead code and indentation).  The fuel `d.length + 8` exceeds the
longest possible chain of nested calls and loop passes, each of which
consumes at least one input byte. -/
def printASN1 (d : List Nat) : Except PyErr Nat :=
  printASN1go (d.length + 8) d

/-! ## LegacyPageStore: `readBsddb` -/

/-- Python `unpack('<H', d[a:a+2])[0]`: little-endian 16-bit read;
`struct.error` when fewer than two bytes are available. -/
def getShortLE (d : Bytes) (a : Nat) : Except PyErr Nat :=
  if a + 2 ≤ d.length then .ok (d.getD a 0 + 256 * d.getD (a + 1) 0)
  else .error .structError

/-- Python `unpack('>L', d[a:a+4])[0]`: big-endian 32-bit read;
`struct.error` when fewer than four bytes are available. -/
def getLongBE (d : Bytes) (a : Nat) : Except PyErr Nat :=
  if a + 4 ≤ d.length then
    .ok (((d.getD a 0 * 256 + d.getD (a + 1) 0) * 256 + d.getD (a + 2) 0) * 256
      + d.getD (a + 3) 0)
  else .error .structError

/-- Python `f.seek(a); f.read(b - a)`: the byte range `[a, b)` of the file,
silently truncated at end of file exactly like Python reads. -/
def fileSlice (file : Bytes) (a b : Nat) : Bytes :=
  (file.drop a).take (b - a)

/-- Stable ascending insertion used to model Python's `sorted`. -/
def insertSorted (x : Nat) : List Nat → List Nat
  | [] => [x]
  | y :: ys => if x ≤ y then x :: y :: ys else y :: insertSorted x ys

/-- Python `sorted` on a list of integers. -/
def sortNat : List Nat → List Nat
  | [] => []
  | x :: xs => insertSorted x (sortNat xs)

/-- The inner `while nval != val` loop of `readBsddb`: reads the
little-endian offset-table triples of one page (the body always runs once,
as the loop starts with `nval = 0, val = 1`); returns the accumulated
absolute offsets, the updated `readkeys`, and the number `keys` of triples
read.  Fuel makes the loop structural; the byte reads bound its passes. -/
def innerLoop : Nat → Bytes → Nat → Nat → Nat → List Nat → Nat → Nat →
    Except PyErr (List Nat × Nat × Nat)
  | 0, _, _, _, _, _, _, _ => .error .fuelExhausted
  | fuel + 1, offsets, pagesize, page, i, offsetVals, readkeys, keys =>
    match getShortLE offsets (2 + i) with
    | .error e => .error e
    | .ok key =>
      match getShortLE offsets (4 + i) with
      | .error e => .error e
      | .ok val =>
        match getShortLE offsets (8 + i) with
        | .error e => .error e
        | .ok nval =>
          let offsetVals := offsetVals ++ [key + pagesize * page, val + pagesize * page]
          if nval = val then .ok (offsetVals, readkeys + 1, keys + 1)
          else innerLoop fuel offsets pagesize page (i + 4) offsetVals (readkeys + 1) (keys + 1)

/-- The outer `while readkeys < nkeys` loop of `readBsddb`: per page,
read the offset table, sort the absolute offsets together with the next
page boundary, and append the `keys * 2` contiguous byte ranges between
adjacent sorted offsets to the record list `db1`. -/
def pageLoop : Nat → Bytes → Nat → Nat → Nat → Nat → List Bytes →
    Except PyErr (List Bytes)
  | 0, _, _, _, _, _, _ => .error .fuelExhausted
  | fuel + 1, file, pagesize, nkeys, readkeys, page, db1 =>
    if readkeys < nkeys then
      let offsets := (file.drop (pagesize * page)).take ((nkeys + 1) * 4 + 2)
      match innerLoop (offsets.length + 4) offsets pagesize page 0 [] readkeys 0 with
      | .error e => .error e
      | .ok (offsetVals, readkeys2, keys) =>
        let valKey := sortNat (offsetVals ++ [pagesize * (page + 1)])
        let recs := (List.range (keys * 2)).map
          (fun i => fileSlice file (valKey.getD i 0) (valKey.getD (i + 1) 0))
        pageLoop fuel file pagesize nkeys readkeys2 (page + 1) (db1 ++ recs)
    else .ok db1

/-- Python `for i in range(0, len(db1), 2): db[db1[i+1]] = db1[i]`: records are
paired value-first, key-second; an odd-length record list would index past
the end. -/
def mkDb : List Bytes → Except PyErr (List (Bytes × Bytes))
  | [] => .ok []
  | [_] => .error .indexError
  | v :: k :: rest =>
    match mkDb rest with
    | .error e => .error e
    | .ok db => .ok ((k, v) :: db)

/-- Python `dict` lookup on the association list built by `mkDb`: the last
binding of a key wins. -/
def dbLookup (db : List (Bytes × Bytes)) (k : Bytes) : Option Bytes :=
  (db.reverse.find? (fun p => p.1 == k)).map (fun p => p.2)

/-- Embedding of `readBsddb` (src/firepwd.py lines 107-162) over the raw
bytes of the file: check the 60-byte header's magic number and version
(`assert` failures are the spec's `BadFormat`), read `pagesize` and
`nkeys`, walk the pages, and regroup the flat record list into a key→value
mapping. -/
def readBsddb (file : Bytes) : Except PyErr (List (Bytes × Bytes)) :=
  match getLongBE (file.take 60) 0 with
  | .error e => .error e
  | .ok magic =>
    if magic ≠ 0x61561 then .error .badFormat
    else
      match getLongBE (file.take 60) 4 with
      | .error e => .error e
      | .ok version =>
        if version ≠ 2 then .error .badFormat
        else
          match getLongBE (file.take 60) 12 with
          | .error e => .error e
          | .ok pagesize =>
            match getLongBE (file.take 60) 0x38 with
            | .error e => .error e
            | .ok nkeys =>
              match pageLoop (nkeys + 1) file pagesize nkeys 0 1 [] with
              | .error e => .error e
              | .ok db1 => mkDb db1

/-! ## MasterKeyExtractor: `extractSecretKey`, `decryptPBE`, `getKey` -/

/-- Base-256 big-endian digits of `n`, with enough structural fuel (the
digit count of a positive `n` never exceeds `n`). -/
def natBEbytesAux : Nat → Nat → Bytes
  | 0, _ => []
  | _ + 1, 0 => []
  | fuel + 1, n + 1 => natBEbytesAux fuel ((n + 1) / 256) ++ [(n + 1) % 256]

/-- Library `Crypto.Util.number.long_to_bytes` without a blocksize: the minimal
big-endian byte encoding (one zero byte for zero). -/
def natBEbytes (n : Nat) : Bytes := natBEbytesAux n n

/-- Library `long_to_bytes(n)`. -/
def longToBytes (n : Nat) : Bytes :=
  if n = 0 then [0] else natBEbytes n

/-- Embedding of `extractSecretKey` (src/firepwd.py lines 227-304) over
the parsed legacy key store `keyData`: locate and decrypt the password
check (a mismatch raises the spec's `InvalidMasterPassword`), then return
`none` when no `CKA_ID` record exists, otherwise peel the three nested
DER/decrypt layers down to the private-key INTEGER and return its
`long_to_bytes` encoding.  The external pyasn1 decoder is the parameter
`derDecode`; the interleaved `printASN1` display calls are kept because
their failures propagate. -/
def extractSecretKey (sha1 : Bytes → Bytes) (hmacSha1 : Bytes → Bytes → Bytes)
    (des3CbcDec : Bytes → Bytes → Bytes → Bytes) (derDecode : Bytes → Option Asn1)
    (masterPassword : Bytes) (keyData : List (Bytes × Bytes)) :
    Except PyErr (Option Bytes) :=
  match dbLookup keyData passwordCheckKey with
  | none => .error .keyError
  | some pwdCheck =>
    match pwdCheck[1]? with
    | none => .error .indexError
    | some entrySaltLen =>
      let entrySalt := (pwdCheck.drop 3).take entrySaltLen
      let encryptedPasswd := pwdCheck.drop (pwdCheck.length - 16)
      match dbLookup keyData globalSaltKey with
      | none => .error .keyError
      | some globalSalt =>
        let cleartextData := decryptMoz3DES sha1 hmacSha1 des3CbcDec globalSalt
            masterPassword entrySalt encryptedPasswd
        if cleartextData ≠ passwordCheckLiteral then .error .invalidMasterPassword
        else
          match dbLookup keyData CKA_ID with
          | none => .ok none
          | some privKeyEntry =>
            match privKeyEntry[1]?, privKeyEntry[2]? with
            | some saltLen, some nameLen =>
              let data := privKeyEntry.drop (3 + saltLen + nameLen)
              match derDecode data with
              | none => .error .asn1Error
              | some privKeyEntryASN1 =>
                match printASN1 data with
                | .error e => .error e
                | .ok _ =>
                  match (privKeyEntryASN1.path [0, 1, 0]).bind Asn1.asOctets with
                  | none => .error .asn1Error
                  | some entrySalt2 =>
                    match (privKeyEntryASN1.path [1]).bind Asn1.asOctets with
                    | none => .error .asn1Error
                    | some privKeyData =>
                      let privKey := decryptMoz3DES sha1 hmacSha1 des3CbcDec globalSalt
                          masterPassword entrySalt2 privKeyData
                      match printASN1 privKey with
                      | .error e => .error e
                      | .ok _ =>
                        match derDecode privKey with
                        | none => .error .asn1Error
                        | some privKeyASN1 =>
                          match (privKeyASN1.path [2]).bind Asn1.asOctets with
                          | none => .error .asn1Error
                          | some prKey =>
                            match printASN1 prKey with
                            | .error e => .error e
                            | .ok _ =>
                              match derDecode prKey with
                              | none => .error .asn1Error
                              | some prKeyASN1 =>
                                match (prKeyASN1.path [3]).bind Asn1.asInt with
                                | none => .error .typeError
                                | some n => .ok (some (longToBytes n))
            | _, _ => .error .indexError

/-- Embedding of `decryptPBE` (src/firepwd.py lines 307-373), dispatching
on the top-level OID of the decoded item.  `assert` failures are the
spec's `UnsupportedParameters`; an unrecognized OID falls off the end of
the Python function, i.e. returns `None`, modelled as `.ok none`. -/
def decryptPBE (sha1 : Bytes → Bytes) (hmacSha1 : Bytes → Bytes → Bytes)
    (des3CbcDec aesCbcDec : Bytes → Bytes → Bytes → Bytes)
    (pbkdf2HmacSha256 : Bytes → Bytes → Nat → Nat → Bytes)
    (decodedItem : Asn1) (masterPassword globalSalt : Bytes) :
    Except PyErr (Option (Bytes × String)) :=
  match decodedItem.path [0, 0] with
  | none => .error .asn1Error
  | some algoNode =>
    let pbeAlgo := algoNode.str
    if pbeAlgo = oid3DES then
      match (decodedItem.path [0, 1, 0]).bind Asn1.asOctets with
      | none => .error .asn1Error
      | some entrySalt =>
        match (decodedItem.path [1]).bind Asn1.asOctets with
        | none => .error .asn1Error
        | some cipherT =>
          let key := decryptMoz3DES sha1 hmacSha1 des3CbcDec globalSalt masterPassword
              entrySalt cipherT
          .ok (some (key.take 24, pbeAlgo))
    else if pbeAlgo = oidPBES2 then
      match decodedItem.path [0, 1, 0, 0] with
      | none => .error .asn1Error
      | some n1 =>
        if n1.str ≠ "1.2.840.113549.1.5.12" then .error .unsupportedParameters
        else
          match decodedItem.path [0, 1, 0, 1, 3, 0] with
          | none => .error .asn1Error
          | some n2 =>
            if n2.str ≠ "1.2.840.113549.2.9" then .error .unsupportedParameters
            else
              match decodedItem.path [0, 1, 1, 0] with
              | none => .error .asn1Error
              | some n3 =>
                if n3.str ≠ "2.16.840.1.101.3.4.1.42" then .error .unsupportedParameters
                else
                  match (decodedItem.path [0, 1, 0, 1, 0]).bind Asn1.asOctets with
                  | none => .error .asn1Error
                  | some entrySalt =>
                    match (decodedItem.path [0, 1, 0, 1, 1]).bind Asn1.asInt with
                    | none => .error .typeError
                    | some iterationCount =>
                      match (decodedItem.path [0, 1, 0, 1, 2]).bind Asn1.asInt with
                      | none => .error .typeError
                      | some keyLength =>
                        if keyLength ≠ 32 then .error .unsupportedParameters
                        else
                          let k := sha1 (globalSalt ++ masterPassword)
                          let key := pbkdf2HmacSha256 k entrySalt iterationCount keyLength
                          match (decodedItem.path [0, 1, 1, 1]).bind Asn1.asOctets with
                          | none => .error .asn1Error
                          | some ivTail =>
                            let iv := 0x04 :: 0x0e :: ivTail
                            match (decodedItem.path [1]).bind Asn1.asOctets with
                            | none => .error .asn1Error
                            | some cipherT =>
                              let clearText := aesCbcDec key iv cipherT
                              .ok (some (clearText, pbeAlgo))
    else .ok none

/-- Embedding of the key4.db branch of `getKey` (src/firepwd.py lines
377-402), over the metadata row `(globalSalt, item2)` and the optional
`nssPrivate.a11` row returned by the SQL queries: decode and decrypt the
check blob (a `None` result from `decryptPBE` makes the tuple unpacking
raise, modelled `.error .typeError`), compare against the check literal,
and on success require and decrypt the `CKA_ID` private-key row, handing
back the first 24 bytes.  A failed check returns `(None, None)`. -/
def getKeyModern (sha1 : Bytes → Bytes) (hmacSha1 : Bytes → Bytes → Bytes)
    (des3CbcDec aesCbcDec : Bytes → Bytes → Bytes → Bytes)
    (pbkdf2HmacSha256 : Bytes → Bytes → Nat → Nat → Bytes)
    (derDecode : Bytes → Option Asn1)
    (masterPassword globalSalt item2 : Bytes) (a11row : Option Bytes) :
    Except PyErr (Option Bytes × Option String) :=
  match printASN1 item2 with
  | .error e => .error e
  | .ok _ =>
    match derDecode item2 with
    | none => .error .asn1Error
    | some decodedItem2 =>
      match decryptPBE sha1 hmacSha1 des3CbcDec aesCbcDec pbkdf2HmacSha256 decodedItem2
          masterPassword globalSalt with
      | .error e => .error e
      | .ok none => .error .typeError
      | .ok (some (clearText, _)) =>
        if clearText = passwordCheckLiteral then
          match a11row with
          | none => .error .noStoredCredentials
          | some a11 =>
            match printASN1 a11 with
            | .error e => .error e
            | .ok _ =>
              match derDecode a11 with
              | none => .error .asn1Error
              | some decoded_a11 =>
                match decryptPBE sha1 hmacSha1 des3CbcDec aesCbcDec pbkdf2HmacSha256
                    decoded_a11 masterPassword globalSalt with
                | .error e => .error e
                | .ok none => .error .typeError
                | .ok (some (clearText2, algo2)) =>
                  .ok (some (clearText2.take 24), some algo2)
        else .ok (none, none)

/-- Embedding of the key3.db branch of `getKey` (src/firepwd.py lines
403-406) over the already-parsed page-store mapping: extract the secret
key (possibly `none`) and pair it with the fixed 3DES algorithm tag. -/
def getKeyLegacy (sha1 : Bytes → Bytes) (hmacSha1 : Bytes → Bytes → Bytes)
    (des3CbcDec : Bytes → Bytes → Bytes → Bytes) (derDecode : Bytes → Option Asn1)
    (masterPassword : Bytes) (keyData : List (Bytes × Bytes)) :
    Except PyErr (Option Bytes × String) :=
  match extractSecretKey sha1 hmacSha1 des3CbcDec derDecode masterPassword keyData with
  | .error e => .error e
  | .ok key => .ok (key, oid3DES)

/-! ## CBC block chaining

`DES3.new(key, DES3.MODE_CBC, iv)` of the external library chains an
8-byte block cipher; the chaining itself is modelled concretely over an
abstract keyed block function so that the spec's round-trip property can
be settled. -/

/-- Bytewise exclusive or of two equal-length byte strings. -/
def xorBytes (a b : Bytes) : Bytes :=
  List.zipWith (fun x y => x ^^^ y) a b

/-- Split a byte string into consecutive 8-byte blocks (the last block is
shorter when the length is not a multiple of eight). -/
def chunks8 : Bytes → List Bytes
  | [] => []
  | a :: l => ((a :: l).take 8) :: chunks8 ((a :: l).drop 8)
termination_by l => l.length
decreasing_by simp; omega

/-- CBC encryption of a block list: each plaintext block is xored with the
previous ciphertext block (initially the IV) and enciphered. -/
def cbcEncBlocks (E : Bytes → Bytes) : Bytes → List Bytes → List Bytes
  | _, [] => []
  | prev, b :: bs =>
    let c := E (xorBytes b prev)
    c :: cbcEncBlocks E c bs

/-- CBC decryption of a block list: each ciphertext block is deciphered
and xored with the previous ciphertext block (initially the IV). -/
def cbcDecBlocks (D : Bytes → Bytes) : Bytes → List Bytes → List Bytes
  | _, [] => []
  | prev, c :: cs => xorBytes (D c) prev :: cbcDecBlocks D c cs

/-- CBC-mode encryption under a keyed block cipher `blockEnc`. -/
def cbcEncrypt (blockEnc : Bytes → Bytes → Bytes) (key iv data : Bytes) : Bytes :=
  (cbcEncBlocks (blockEnc key) iv (chunks8 data)).flatten

/-- CBC-mode decryption under a keyed block cipher `blockDec`. -/
def cbcDecrypt (blockDec : Bytes → Bytes → Bytes) (key iv data : Bytes) : Bytes :=
  (cbcDecBlocks (blockDec key) iv (chunks8 data)).flatten

lemma xorBytes_length (a b : Bytes) : (xorBytes a b).length = min a.length b.length := by
  simp [xorBytes]

lemma xorBytes_cancel : ∀ (a c : Bytes), a.length = c.length →
    xorBytes (xorBytes a c) c = a
  | [], [], _ => rfl
  | x :: a, y :: c, h => by
    simp only [xorBytes, List.zipWith] at *
    rw [Nat.xor_cancel_right]
    have := xorBytes_cancel a c (by simpa using h)
    simp only [xorBytes] at this
    rw [this]

lemma chunks8_flatten : ∀ l : Bytes, (chunks8 l).flatten = l
  | [] => by simp [chunks8]
  | a :: l => by
    rw [chunks8]
    simp only [List.flatten_cons]
    rw [chunks8_flatten ((a :: l).drop 8), List.take_append_drop]
termination_by l => l.length
decreasing_by simp; omega

lemma chunks8_block_length : ∀ l : Bytes, l.length % 8 = 0 →
    ∀ b ∈ chunks8 l, b.length = 8
  | [], _, b, hb => by simp [chunks8] at hb
  | a :: l, h, b, hb => by
    rw [chunks8] at hb
    have hlen : 8 ≤ (a :: l).length := by
      by_contra hc
      push_neg at hc
      interval_cases hl : (a :: l).length <;> simp_all
    rcases List.mem_cons.mp hb with h1 | h1
    · rw [h1, List.length_take]
      omega
    · exact chunks8_block_length ((a :: l).drop 8)
        (by simp only [List.length_drop]; omega) b h1
termination_by l => l.length
decreasing_by simp; omega

lemma flatten_chunks8 : ∀ bs : List Bytes, (∀ b ∈ bs, b.length = 8) →
    chunks8 bs.flatten = bs
  | [], _ => by simp [chunks8]
  | b :: bs, h => by
    have hb : b.length = 8 := h b (List.mem_cons_self b bs)
    have hbs := fun x hx => h x (List.mem_cons_of_mem b hx)
    obtain ⟨x, xs, rfl⟩ : ∃ x xs, b = x :: xs := by
      cases b with
      | nil => simp at hb
      | cons x xs => exact ⟨x, xs, rfl⟩
    have h8 : (x :: xs).length = 8 := hb
    simp only [List.flatten_cons, List.cons_append]
    rw [chunks8]
    have heq : x :: (xs ++ bs.flatten) = (x :: xs) ++ bs.flatten := by simp
    have ht : ((x :: (xs ++ bs.flatten)).take 8) = x :: xs := by
      rw [heq, List.take_append_eq_append_take, List.take_of_length_le (by omega),
        h8, Nat.sub_self, List.take_zero, List.append_nil]
    have hd : ((x :: (xs ++ bs.flatten)).drop 8) = bs.flatten := by
      rw [heq, List.drop_append_eq_append_drop, h8, Nat.sub_self,
        List.drop_zero, List.drop_of_length_le (by omega), List.nil_append]
    rw [ht, hd, flatten_chunks8 bs hbs]

/-- Every ciphertext block that CBC encryption produces from 8-byte
plaintext blocks and an 8-byte IV is 8 bytes, provided the block cipher
preserves the block size. -/
lemma cbcEncBlocks_length (E : Bytes → Bytes) (hE : ∀ b, b.length = 8 → (E b).length = 8) :
    ∀ (bs : List Bytes) (prev : Bytes), (∀ b ∈ bs, b.length = 8) → prev.length = 8 →
    ∀ c ∈ cbcEncBlocks E prev bs, c.length = 8
  | [], _, _, _, c, hc => by simp [cbcEncBlocks] at hc
  | b :: bs, prev, hbs, hprev, c, hc => by
    rw [cbcEncBlocks] at hc
    have hb : b.length = 8 := hbs b (List.mem_cons_self b bs)
    have hblock : (E (xorBytes b prev)).length = 8 := by
      apply hE
      rw [xorBytes_length, hb, hprev]
      omega
    rcases List.mem_cons.mp hc with h1 | h1
    · rw [h1]; exact hblock
    · exact cbcEncBlocks_length E hE bs (E (xorBytes b prev))
        (fun x hx => hbs x (List.mem_cons_of_mem b hx)) hblock c h1

/-- CBC decryption inverts CBC encryption blockwise when the block cipher
and its inverse do. -/
lemma cbcDecBlocks_cbcEncBlocks (E D : Bytes → Bytes)
    (hE : ∀ b, b.length = 8 → (E b).length = 8) (hD : ∀ b, D (E b) = b) :
    ∀ (bs : List Bytes) (prev : Bytes), (∀ b ∈ bs, b.length = 8) → prev.length = 8 →
    cbcDecBlocks D prev (cbcEncBlocks E prev bs) = bs
  | [], _, _, _ => rfl
  | b :: bs, prev, hbs, hprev => by
    rw [cbcEncBlocks, cbcDecBlocks, hD]
    have hb : b.length = 8 := hbs b (List.mem_cons_self b bs)
    rw [xorBytes_cancel b prev (by rw [hb, hprev])]
    congr 1
    exact cbcDecBlocks_cbcEncBlocks E D hE hD bs (E (xorBytes b prev))
      (fun x hx => hbs x (List.mem_cons_of_mem b hx))
      (hE _ (by rw [xorBytes_length, hb, hprev]; omega))

/-! ## Concrete structures used by witnesses and counterexamples -/

/-- The DER tree of a pbeWithSha1AndTripleDES-CBC item as the source
documents it (src/firepwd.py lines 310-320): entry salt and ciphertext. -/
def des3Item (entrySalt ct : Bytes) : Asn1 :=
  .seq [.seq [.oid oid3DES, .seq [.oct entrySalt, .int 1]], .oct ct]

/-- The DER tree of a PBES2/PBKDF2 item as the source documents it
(src/firepwd.py lines 330-354). -/
def pbes2Item (entrySalt : Bytes) (iterationCount keyLength : Nat)
    (ivTail cipherT : Bytes) : Asn1 :=
  .seq [.seq [.oid oidPBES2,
              .seq [.seq [.oid "1.2.840.113549.1.5.12",
                          .seq [.oct entrySalt, .int iterationCount, .int keyLength,
                                .seq [.oid "1.2.840.113549.2.9"]]],
                    .seq [.oid "2.16.840.1.101.3.4.1.42", .oct ivTail]]],
        .oct cipherT]

/-- A decoded private-key wrapper (the second documented shape,
src/firepwd.py lines 273-282) whose OCTET STRING field is the two-byte
buffer `[4, 0]`. -/
def cexPrivKeyASN1 : Asn1 := .seq [.int 0, .seq [], .oct [4, 0]]

/-- A decoded innermost RSA-style sequence (the third documented shape,
src/firepwd.py lines 287-299) whose fourth field is the INTEGER 1. -/
def cexPrKeyASN1 : Asn1 := .seq [.int 0, .int 0, .int 0, .int 1]

/-- A concrete stand-in for the external pyasn1 decoder, mapping the three
buffers decoded along one legacy extraction run to the three concrete
trees above. -/
def cexDecode : Bytes → Option Asn1 := fun d =>
  if d = [5, 0] then some (des3Item [] [2, 1, 7])
  else if d = [2, 1, 7] then some cexPrivKeyASN1
  else if d = [4, 0] then some cexPrKeyASN1
  else none

/-- A concrete legacy key store: a password check whose trailing 16 bytes
are the check literal itself (so the identity stand-in cipher passes the
check), an empty global salt, and a `CKA_ID` private-key entry whose
payload is the NULL buffer `[5, 0]`. -/
def cexKeyData : List (Bytes × Bytes) :=
  [(passwordCheckKey, [0, 0, 0] ++ passwordCheckLiteral),
   (globalSaltKey, []),
   (CKA_ID, [0, 0, 0, 5, 0])]

/-- A concrete stand-in pyasn1 decoder for modern-path runs: the metadata
check blob `[5, 0]` decodes to a 3DES item enciphering the check literal,
the private-key blob `[4, 0]` to a 3DES item enciphering `[7, 7, 7]`. -/
def wDecode : Bytes → Option Asn1 := fun d =>
  if d = [5, 0] then some (des3Item [] passwordCheckLiteral)
  else if d = [4, 0] then some (des3Item [] [7, 7, 7])
  else none

/-- A concrete legacy key store with a passing check and no `CKA_ID`
record. -/
def kd10 : List (Bytes × Bytes) :=
  [(passwordCheckKey, [0, 0, 0] ++ passwordCheckLiteral), (globalSaltKey, [])]

/-! ## Theorems -/

/-- Evaluation of `decryptPBE` on a PBES2 item of the documented shape:
everything up to the key-length check is accepted, and the result is the
AES-CBC decryption under the PBKDF2-derived key and the `04 0e`-prefixed
IV exactly when the declared key length is 32. -/
lemma decryptPBE_pbes2Item (sha1 : Bytes → Bytes) (hmacSha1 : Bytes → Bytes → Bytes)
    (des3CbcDec aesCbcDec : Bytes → Bytes → Bytes → Bytes)
    (pbkdf2HmacSha256 : Bytes → Bytes → Nat → Nat → Bytes)
    (gs mp es ivTail ct : Bytes) (iter kl : Nat) :
    decryptPBE sha1 hmacSha1 des3CbcDec aesCbcDec pbkdf2HmacSha256
        (pbes2Item es iter kl ivTail ct) mp gs
      = if kl ≠ 32 then .error .unsupportedParameters
        else .ok (some (aesCbcDec (pbkdf2HmacSha256 (sha1 (gs ++ mp)) es iter kl)
            (0x04 :: 0x0e :: ivTail) ct, oidPBES2)) := rfl

/-- C3: on a PBES2 parameter set with keyLength = 32, `decryptPBE`
computes seed = SHA1(globalSalt ∥ masterPassword), key =
PBKDF2-HMAC-SHA256(seed, entrySalt, iterationCount, 32), iv = the fixed
two-byte prefix `04 0e` followed by the stored IV tail, and returns the
AES-CBC decryption of the ciphertext under that key and IV (paired with
the PBES2 algorithm tag). -/
theorem claim3_pbes2_derivation (sha1 : Bytes → Bytes) (hmacSha1 : Bytes → Bytes → Bytes)
    (des3CbcDec aesCbcDec : Bytes → Bytes → Bytes → Bytes)
    (pbkdf2HmacSha256 : Bytes → Bytes → Nat → Nat → Bytes)
    (gs mp es ivTail ct : Bytes) (iter : Nat) :
    decryptPBE sha1 hmacSha1 des3CbcDec aesCbcDec pbkdf2HmacSha256
        (pbes2Item es iter 32 ivTail ct) mp gs
      = .ok (some (aesCbcDec (pbkdf2HmacSha256 (sha1 (gs ++ mp)) es iter 32)
          (0x04 :: 0x0e :: ivTail) ct, oidPBES2)) := by
  rw [decryptPBE_pbes2Item]
  simp

/-- C6 (amended): a PBES2 item whose declared key length differs from 32
makes `decryptPBE` fail with `UnsupportedParameters`; but an item whose
top-level OID is neither of the two recognized ones makes `decryptPBE`
return `None` (no value, `.ok none`) rather than fail — the caller's
tuple unpacking then raises a generic `TypeError`. -/
theorem claim6_pbe_dispatch (sha1 : Bytes → Bytes) (hmacSha1 : Bytes → Bytes → Bytes)
    (des3CbcDec aesCbcDec : Bytes → Bytes → Bytes → Bytes)
    (pbkdf2HmacSha256 : Bytes → Bytes → Nat → Nat → Bytes) :
    (∀ (gs mp es ivTail ct : Bytes) (iter kl : Nat), kl ≠ 32 →
      decryptPBE sha1 hmacSha1 des3CbcDec aesCbcDec pbkdf2HmacSha256
        (pbes2Item es iter kl ivTail ct) mp gs = .error .unsupportedParameters)
    ∧ (∀ (v : Asn1) (gs mp : Bytes) (algoNode : Asn1),
        v.path [0, 0] = some algoNode → algoNode.str ≠ oid3DES → algoNode.str ≠ oidPBES2 →
        decryptPBE sha1 hmacSha1 des3CbcDec aesCbcDec pbkdf2HmacSha256 v mp gs = .ok none) := by
  constructor
  · intro gs mp es ivTail ct iter kl hkl
    rw [decryptPBE_pbes2Item, if_pos hkl]
  · intro v gs mp algoNode hpath h1 h2
    simp only [decryptPBE, hpath]
    rw [if_neg h1, if_neg h2]

/-- C6 counterexample to the claim as stated: a decoded item whose
top-level OID is recognized by neither branch makes `decryptPBE` return
`None` (Python falls off the end of the function) instead of failing with
any error. -/
theorem claim6_counterexample :
    decryptPBE (fun _ => []) (fun _ _ => []) (fun _ _ c => c) (fun _ _ c => c)
      (fun _ _ _ _ => []) (Asn1.seq [Asn1.seq [Asn1.oid "1.2.3"]]) [] []
      = .ok none := rfl

/-- Witness for C6 at concrete inputs: key length 16 is rejected with
`UnsupportedParameters`. -/
theorem claim6_witness :
    decryptPBE (fun _ => []) (fun _ _ => []) (fun _ _ c => c) (fun _ _ c => c)
      (fun _ _ _ _ => []) (pbes2Item [] 1 16 [] []) [] []
      = .error .unsupportedParameters :=
  (claim6_pbe_dispatch (fun _ => []) (fun _ _ => []) (fun _ _ c => c) (fun _ _ c => c)
    (fun _ _ _ _ => [])).1 [] [] [] [] [] 1 16 (by decide)

/-- Evaluation of `printASN1go` on a non-SEQUENCE tag with a long-form
length byte: the third byte is taken as the length unconditionally. -/
lemma printASN1go_longform (fuel b c : Nat) (rest : List Nat) (hb : b &&& 0x80 > 0) :
    printASN1go (fuel + 1) (4 :: b :: c :: rest) = .ok (c + 2) := by
  simp [printASN1go, hb]

/-- C4 (amended): the decoder has no MalformedDer failure.  For every
buffer `04 b c …` whose length byte `b` has the top bit set, it succeeds
and returns `c + 2`, taking the third byte as the length no matter how
many length bytes `b` declares and no matter whether the declared content
extends past the end of the buffer (Python slicing silently truncates);
only a buffer too short to hold the tag and first length byte fails, with
a generic IndexError. -/
theorem claim4_der_decoder_behavior :
    (∀ (b c : Nat) (rest : List Nat), b &&& 0x80 > 0 →
      printASN1 (4 :: b :: c :: rest) = .ok (c + 2))
    ∧ printASN1 [] = .error .indexError
    ∧ (∀ a : Nat, printASN1 [a] = .error .indexError) := by
  refine ⟨?_, rfl, fun a => rfl⟩
  intro b c rest hb
  unfold printASN1
  have hf : (4 :: b :: c :: rest).length + 8 = (rest.length + 10) + 1 := by
    simp [List.length_cons]
  rw [hf]
  exact printASN1go_longform _ _ _ _ hb

/-- C4 counterexample to the claim as stated: the buffer `04 82 01 00` is
truncated (its DER length field `82 01 00` declares a 256-byte content of
which none is present) and uses a two-byte long-form length, yet the
decoder succeeds, returning consumed length 3, instead of failing with a
MalformedDer error. -/
theorem claim4_counterexample :
    printASN1 [4, 0x82, 1, 0] = .ok 3 := rfl

/-- Witness for C4 at a concrete input. -/
theorem claim4_witness :
    printASN1 [4, 0x82, 7] = .ok 9 :=
  claim4_der_decoder_behavior.1 0x82 7 [] (by decide)

/-- C7: a legacy page store whose 60-byte header has a wrong magic number
or a wrong version fails with `BadFormat`; the result is the same for
every continuation `rest` of the file beyond the header, so no page past
the header influences (or is needed for) the failure. -/
theorem claim7_badformat_header (hdr rest : Bytes) (h60 : hdr.length = 60)
    (m v : Nat) (hm : getLongBE hdr 0 = .ok m) (hv : getLongBE hdr 4 = .ok v)
    (hbad : m ≠ 0x61561 ∨ v ≠ 2) :
    readBsddb (hdr ++ rest) = .error .badFormat := by
  have htake : (hdr ++ rest).take 60 = hdr := by
    rw [← h60]
    exact List.take_left hdr rest
  unfold readBsddb
  rw [htake, hm, hv]
  rcases hbad with hb | hb
  · simp [hb]
  · rcases eq_or_ne m 0x61561 with h1 | h1
    · simp [h1, hb]
    · simp [h1]

/-- Witness for C7 at a concrete input: an all-zero header (magic 0). -/
theorem claim7_witness :
    readBsddb (List.replicate 60 0 ++ [1, 2, 3]) = .error .badFormat :=
  claim7_badformat_header (List.replicate 60 0) [1, 2, 3] (by simp) 0 0 rfl rfl
    (Or.inl (by decide))

/-- C9: the key derivation and the master-key extraction are pure
functions of their arguments — two runs on equal inputs produce equal
outputs: an identical derived key/IV pair and decryption for
`decryptMoz3DES`, and byte-identical extraction results on the legacy
(key3.db) path and on the modern (key4.db) path alike. -/
theorem claim9_determinism (sha1 : Bytes → Bytes) (hmacSha1 : Bytes → Bytes → Bytes)
    (des3CbcDec aesCbcDec : Bytes → Bytes → Bytes → Bytes)
    (pbkdf2HmacSha256 : Bytes → Bytes → Nat → Nat → Bytes)
    (derDecode : Bytes → Option Asn1)
    (gs gs' mp mp' es es' ct ct' item2 item2' : Bytes)
    (a11row a11row' : Option Bytes) (kd kd' : List (Bytes × Bytes))
    (h1 : gs = gs') (h2 : mp = mp') (h3 : es = es') (h4 : ct = ct') (h5 : kd = kd')
    (h6 : item2 = item2') (h7 : a11row = a11row') :
    moz3DESkeyiv sha1 hmacSha1 gs mp es = moz3DESkeyiv sha1 hmacSha1 gs' mp' es'
    ∧ decryptMoz3DES sha1 hmacSha1 des3CbcDec gs mp es ct
        = decryptMoz3DES sha1 hmacSha1 des3CbcDec gs' mp' es' ct'
    ∧ getKeyLegacy sha1 hmacSha1 des3CbcDec derDecode mp kd
        = getKeyLegacy sha1 hmacSha1 des3CbcDec derDecode mp' kd'
    ∧ getKeyModern sha1 hmacSha1 des3CbcDec aesCbcDec pbkdf2HmacSha256 derDecode
          mp gs item2 a11row
        = getKeyModern sha1 hmacSha1 des3CbcDec aesCbcDec pbkdf2HmacSha256 derDecode
          mp' gs' item2' a11row' := by
  subst h1 h2 h3 h4 h5 h6 h7
  exact ⟨rfl, rfl, rfl, rfl⟩

/-- Witness for C9 at concrete inputs. -/
theorem claim9_witness :
    moz3DESkeyiv (fun _ => [1]) (fun _ _ => [2]) [3] [4] [5]
        = moz3DESkeyiv (fun _ => [1]) (fun _ _ => [2]) [3] [4] [5]
    ∧ decryptMoz3DES (fun _ => [1]) (fun _ _ => [2]) (fun _ _ c => c) [3] [4] [5] [6]
        = decryptMoz3DES (fun _ => [1]) (fun _ _ => [2]) (fun _ _ c => c) [3] [4] [5] [6]
    ∧ getKeyLegacy (fun _ => [1]) (fun _ _ => [2]) (fun _ _ c => c) (fun _ => none) [4]
          cexKeyData
        = getKeyLegacy (fun _ => [1]) (fun _ _ => [2]) (fun _ _ c => c) (fun _ => none) [4]
          cexKeyData
    ∧ getKeyModern (fun _ => [1]) (fun _ _ => [2]) (fun _ _ c => c) (fun _ _ c => c)
          (fun _ _ _ _ => []) (fun _ => none) [4] [3] [5, 0] (some [7])
        = getKeyModern (fun _ => [1]) (fun _ _ => [2]) (fun _ _ c => c) (fun _ _ c => c)
          (fun _ _ _ _ => []) (fun _ => none) [4] [3] [5, 0] (some [7]) :=
  claim9_determinism (fun _ => [1]) (fun _ _ => [2]) (fun _ _ c => c) (fun _ _ c => c)
    (fun _ _ _ _ => []) (fun _ => none) [3] [3] [4] [4] [5] [5] [6] [6] [5, 0] [5, 0]
    (some [7]) (some [7]) cexKeyData cexKeyData rfl rfl rfl rfl rfl rfl rfl

/-- C8: round-trip.  For every global salt, master password, entry salt of
length at most 20 and plaintext whose length is a multiple of 8,
CBC-encrypting the plaintext under the key/IV pair derived by the
legacy3DES chain and then running the legacy3DES decryption on the result
with the same arguments returns the plaintext, for any length-preserving
keyed block cipher and its inverse (as 3DES is), and any HMAC-SHA1 with
20-byte digests. -/
theorem claim8_roundtrip (sha1 : Bytes → Bytes) (hmacSha1 : Bytes → Bytes → Bytes)
    (blockEnc blockDec : Bytes → Bytes → Bytes)
    (globalSalt masterPassword entrySalt plaintext : Bytes)
    (hsalt : entrySalt.length ≤ 20)
    (hlen : plaintext.length % 8 = 0)
    (hmac20 : ∀ k m, (hmacSha1 k m).length = 20)
    (hE : ∀ k b, b.length = 8 → (blockEnc k b).length = 8)
    (hD : ∀ k b, blockDec k (blockEnc k b) = b) :
    decryptMoz3DES sha1 hmacSha1 (cbcDecrypt blockDec) globalSalt masterPassword entrySalt
      (cbcEncrypt blockEnc
        (moz3DESkeyiv sha1 hmacSha1 globalSalt masterPassword entrySalt).1
        (moz3DESkeyiv sha1 hmacSha1 globalSalt masterPassword entrySalt).2
        plaintext)
      = plaintext := by
  have hivlen : (moz3DESkeyiv sha1 hmacSha1 globalSalt masterPassword entrySalt).2.length
      = 8 := by
    simp only [moz3DESkeyiv, List.length_drop, List.length_append, hmac20]
  show cbcDecrypt blockDec
      (moz3DESkeyiv sha1 hmacSha1 globalSalt masterPassword entrySalt).1
      (moz3DESkeyiv sha1 hmacSha1 globalSalt masterPassword entrySalt).2
      (cbcEncrypt blockEnc
        (moz3DESkeyiv sha1 hmacSha1 globalSalt masterPassword entrySalt).1
        (moz3DESkeyiv sha1 hmacSha1 globalSalt masterPassword entrySalt).2
        plaintext)
      = plaintext
  set key := (moz3DESkeyiv sha1 hmacSha1 globalSalt masterPassword entrySalt).1
  set iv := (moz3DESkeyiv sha1 hmacSha1 globalSalt masterPassword entrySalt).2
  have hblocks : ∀ b ∈ chunks8 plaintext, b.length = 8 :=
    chunks8_block_length plaintext hlen
  rw [cbcEncrypt, cbcDecrypt]
  rw [flatten_chunks8 _ (cbcEncBlocks_length (blockEnc key) (fun b hb => hE key b hb)
    (chunks8 plaintext) iv hblocks hivlen)]
  rw [cbcDecBlocks_cbcEncBlocks (blockEnc key) (blockDec key) (fun b hb => hE key b hb)
    (fun b => hD key b) (chunks8 plaintext) iv hblocks hivlen]
  exact chunks8_flatten plaintext

/-- Witness for C8 at concrete inputs. -/
theorem claim8_witness :
    decryptMoz3DES (fun _ => []) (fun _ _ => List.replicate 20 3) (cbcDecrypt (fun _ b => b))
      [1] [2] [3]
      (cbcEncrypt (fun _ b => b)
        (moz3DESkeyiv (fun _ => []) (fun _ _ => List.replicate 20 3) [1] [2] [3]).1
        (moz3DESkeyiv (fun _ => []) (fun _ _ => List.replicate 20 3) [1] [2] [3]).2
        [0, 1, 2, 3, 4, 5, 6, 7])
      = [0, 1, 2, 3, 4, 5, 6, 7] :=
  claim8_roundtrip (fun _ => []) (fun _ _ => List.replicate 20 3) (fun _ b => b) (fun _ b => b)
    [1] [2] [3] [0, 1, 2, 3, 4, 5, 6, 7] (by decide) (by decide)
    (fun _ _ => by simp) (fun _ _ hb => hb) (fun _ _ => rfl)

/-- C2 (amended): on the legacy path a failed password check raises the
spec's `InvalidMasterPassword`; on the modern path a failed check makes
the extractor return `(None, None)` — a non-error result without a key —
and it does not continue to the private-key lookup (the `a11row` argument
is irrelevant to the result). -/
theorem claim2_check_failure (sha1 : Bytes → Bytes) (hmacSha1 : Bytes → Bytes → Bytes)
    (des3CbcDec aesCbcDec : Bytes → Bytes → Bytes → Bytes)
    (pbkdf2HmacSha256 : Bytes → Bytes → Nat → Nat → Bytes)
    (derDecode : Bytes → Option Asn1) :
    (∀ (mp : Bytes) (kd : List (Bytes × Bytes)) (pc : Bytes) (sl : Nat) (gs : Bytes),
      dbLookup kd passwordCheckKey = some pc → pc[1]? = some sl →
      dbLookup kd globalSaltKey = some gs →
      decryptMoz3DES sha1 hmacSha1 des3CbcDec gs mp ((pc.drop 3).take sl)
        (pc.drop (pc.length - 16)) ≠ passwordCheckLiteral →
      extractSecretKey sha1 hmacSha1 des3CbcDec derDecode mp kd
        = .error .invalidMasterPassword)
    ∧ (∀ (mp gs item2 : Bytes) (a11row : Option Bytes) (m : Nat) (v : Asn1)
        (ct : Bytes) (algo : String),
      printASN1 item2 = .ok m → derDecode item2 = some v →
      decryptPBE sha1 hmacSha1 des3CbcDec aesCbcDec pbkdf2HmacSha256 v mp gs
        = .ok (some (ct, algo)) →
      ct ≠ passwordCheckLiteral →
      getKeyModern sha1 hmacSha1 des3CbcDec aesCbcDec pbkdf2HmacSha256 derDecode
        mp gs item2 a11row = .ok (none, none)) := by
  constructor
  · intro mp kd pc sl gs h1 h2 h3 h4
    simp only [extractSecretKey, h1, h2, h3]
    rw [if_pos h4]
  · intro mp gs item2 a11row m v ct algo h1 h2 h3 h4
    simp only [getKeyModern, h1, h2, h3]
    rw [if_neg h4]

/-- C2 counterexample to the claim as stated: a concrete modern-path run
whose decrypted check value differs from the check literal returns the
success value `(None, None)` — it does not fail with
`InvalidMasterPassword` (and in particular is not an error at all), even
though a private-key row is present. -/
theorem claim2_counterexample :
    getKeyModern (fun _ => []) (fun _ _ => []) (fun _ _ c => c) (fun _ _ c => c)
      (fun _ _ _ _ => []) (fun _ => some (des3Item [] [9, 9])) [] [] [5, 0] (some [7])
      = .ok (none, none) := rfl

/-- Witness for C2 at concrete inputs. -/
theorem claim2_witness :
    extractSecretKey (fun _ => []) (fun _ _ => []) (fun _ _ c => c) (fun _ => none) []
      [(passwordCheckKey, [0, 0, 0, 1]), (globalSaltKey, [])]
      = .error .invalidMasterPassword
    ∧ getKeyModern (fun _ => []) (fun _ _ => []) (fun _ _ c => c) (fun _ _ c => c)
        (fun _ _ _ _ => []) (fun _ => some (des3Item [] [9, 9])) [] [] [5, 0] (some [7])
        = .ok (none, none) :=
  ⟨(claim2_check_failure (fun _ => []) (fun _ _ => []) (fun _ _ c => c) (fun _ _ c => c)
      (fun _ _ _ _ => []) (fun _ => none)).1 []
      [(passwordCheckKey, [0, 0, 0, 1]), (globalSaltKey, [])] [0, 0, 0, 1] 0 []
      (by decide) (by decide) (by decide) (by decide),
   (claim2_check_failure (fun _ => []) (fun _ _ => []) (fun _ _ c => c) (fun _ _ c => c)
      (fun _ _ _ _ => []) (fun _ => some (des3Item [] [9, 9]))).2 [] [] [5, 0] (some [7])
      2 (des3Item [] [9, 9]) [9, 9] oid3DES rfl rfl rfl (by decide)⟩

/-- C5 (amended): whenever modern-path extraction succeeds with a key, that
key is the first 24 bytes of the decrypted private-key blob, hence at most
24 bytes (exactly 24 only when the blob is at least that long); whenever
legacy-path extraction succeeds with a key, that key is the minimal
big-endian `long_to_bytes` encoding of the private-key INTEGER, whose
length is not fixed at 24. -/
theorem claim5_key_length (sha1 : Bytes → Bytes) (hmacSha1 : Bytes → Bytes → Bytes)
    (des3CbcDec aesCbcDec : Bytes → Bytes → Bytes → Bytes)
    (pbkdf2HmacSha256 : Bytes → Bytes → Nat → Nat → Bytes)
    (derDecode : Bytes → Option Asn1) :
    (∀ (mp gs item2 : Bytes) (a11row : Option Bytes) (key : Bytes) (algo : Option String),
      getKeyModern sha1 hmacSha1 des3CbcDec aesCbcDec pbkdf2HmacSha256 derDecode
        mp gs item2 a11row = .ok (some key, algo) → key.length ≤ 24)
    ∧ (∀ (mp : Bytes) (kd : List (Bytes × Bytes)) (key : Bytes),
      extractSecretKey sha1 hmacSha1 des3CbcDec derDecode mp kd = .ok (some key) →
      ∃ n : Nat, key = longToBytes n) := by
  constructor
  · intro mp gs item2 a11row key algo h
    unfold getKeyModern at h
    repeat' split at h
    all_goals simp_all
    obtain ⟨hk, -⟩ := h
    subst hk
    simp only [List.length_take]
    omega
  · intro mp kd key h
    unfold extractSecretKey at h
    repeat' split at h
    all_goals try simp_all
    all_goals repeat' split at h
    all_goals simp_all
    exact ⟨_, h.symm⟩

/-- C5 counterexample to the claim as stated: a concrete legacy store on
which master-key extraction succeeds and the key handed over together
with the 3DES algorithm tag is the single byte `[1]` — not 24 bytes —
because the private-key INTEGER is 1 and `long_to_bytes` strips leading
zeros. -/
theorem claim5_counterexample :
    getKeyLegacy (fun _ => []) (fun _ _ => []) (fun _ _ c => c) cexDecode [] cexKeyData
        = .ok (some [1], oid3DES)
    ∧ ([1] : Bytes).length ≠ 24 :=
  ⟨rfl, by decide⟩

/-- Witness for C5 at concrete inputs: a modern run handing over a 3-byte
key (at most 24 bytes) and a legacy run handing over `long_to_bytes 1`. -/
theorem claim5_witness :
    getKeyModern (fun _ => []) (fun _ _ => []) (fun _ _ c => c) (fun _ _ c => c)
        (fun _ _ _ _ => []) wDecode [] [] [5, 0] (some [4, 0])
      = .ok (some [7, 7, 7], some oid3DES)
    ∧ ([7, 7, 7] : Bytes).length ≤ 24
    ∧ (∃ n : Nat, ([1] : Bytes) = longToBytes n) :=
  ⟨rfl,
   (claim5_key_length (fun _ => []) (fun _ _ => []) (fun _ _ c => c) (fun _ _ c => c)
      (fun _ _ _ _ => []) wDecode).1 [] [] [5, 0] (some [4, 0]) [7, 7, 7]
      (some oid3DES) rfl,
   (claim5_key_length (fun _ => []) (fun _ _ => []) (fun _ _ c => c) (fun _ _ c => c)
      (fun _ _ _ _ => []) cexDecode).2 [] cexKeyData [1] rfl⟩

/-- C10: on the legacy path, when the password check passes but the store
has no record keyed `CKA_ID`, extraction returns no key — `.ok none`,
paired by `getKey` with the 3DES algorithm tag — rather than raising
`NoStoredCredentials`; unlike the modern path, which in the corresponding
situation (check passed, no `a11` row) raises `NoStoredCredentials`. -/
theorem claim10_missing_cka_id (sha1 : Bytes → Bytes) (hmacSha1 : Bytes → Bytes → Bytes)
    (des3CbcDec aesCbcDec : Bytes → Bytes → Bytes → Bytes)
    (pbkdf2HmacSha256 : Bytes → Bytes → Nat → Nat → Bytes)
    (derDecode : Bytes → Option Asn1) :
    (∀ (mp : Bytes) (kd : List (Bytes × Bytes)) (pc : Bytes) (sl : Nat) (gs : Bytes),
      dbLookup kd passwordCheckKey = some pc → pc[1]? = some sl →
      dbLookup kd globalSaltKey = some gs →
      decryptMoz3DES sha1 hmacSha1 des3CbcDec gs mp ((pc.drop 3).take sl)
        (pc.drop (pc.length - 16)) = passwordCheckLiteral →
      dbLookup kd CKA_ID = none →
      extractSecretKey sha1 hmacSha1 des3CbcDec derDecode mp kd = .ok none
      ∧ getKeyLegacy sha1 hmacSha1 des3CbcDec derDecode mp kd = .ok (none, oid3DES))
    ∧ (∀ (mp gs item2 : Bytes) (m : Nat) (v : Asn1) (algo : String),
      printASN1 item2 = .ok m → derDecode item2 = some v →
      decryptPBE sha1 hmacSha1 des3CbcDec aesCbcDec pbkdf2HmacSha256 v mp gs
        = .ok (some (passwordCheckLiteral, algo)) →
      getKeyModern sha1 hmacSha1 des3CbcDec aesCbcDec pbkdf2HmacSha256 derDecode
        mp gs item2 none = .error .noStoredCredentials) := by
  constructor
  · intro mp kd pc sl gs h1 h2 h3 h4 h5
    have hex : extractSecretKey sha1 hmacSha1 des3CbcDec derDecode mp kd = .ok none := by
      simp only [extractSecretKey, h1, h2, h3, h5]
      rw [if_neg (by simp [h4])]
    exact ⟨hex, by simp only [getKeyLegacy, hex]⟩
  · intro mp gs item2 m v algo h1 h2 h3
    simp only [getKeyModern, h1, h2, h3]
    simp

/-- Witness for C10 at concrete inputs. -/
theorem claim10_witness :
    (extractSecretKey (fun _ => []) (fun _ _ => []) (fun _ _ c => c) (fun _ => none) [] kd10
        = .ok none
      ∧ getKeyLegacy (fun _ => []) (fun _ _ => []) (fun _ _ c => c) (fun _ => none) [] kd10
        = .ok (none, oid3DES))
    ∧ getKeyModern (fun _ => []) (fun _ _ => []) (fun _ _ c => c) (fun _ _ c => c)
        (fun _ _ _ _ => []) wDecode [] [] [5, 0] none = .error .noStoredCredentials :=
  ⟨(claim10_missing_cka_id (fun _ => []) (fun _ _ => []) (fun _ _ c => c) (fun _ _ c => c)
      (fun _ _ _ _ => []) (fun _ => none)).1 [] kd10 ([0, 0, 0] ++ passwordCheckLiteral) 0 []
      (by decide) (by decide) (by decide) (by decide) (by decide),
   (claim10_missing_cka_id (fun _ => []) (fun _ _ => []) (fun _ _ c => c) (fun _ _ c => c)
      (fun _ _ _ _ => []) wDecode).2 [] [] [5, 0] 2 (des3Item [] passwordCheckLiteral)
      oid3DES rfl rfl rfl⟩

end Firepwd
